import Mathlib

/-!
Verification of the correspondence-record service (`src/main.py`).

Strings are modelled as `List Char` (`Str`), so that the character-level
operations of the Python code (`str.replace`, `str.strip`, `str.split`,
`int(...)`) become structurally recursive Lean functions amenable to proof.
Python `datetime.date` values are modelled by `PyDate` together with the
constructor bounds of CPython (`1 <= year <= 9999`, `1 <= month <= 12`,
`1 <= day <= days-in-month`), and `calendar.monthrange`/`calendar.isleap`
are translated directly.

The pandas DataFrame `df` together with the CSV file written by
`df.to_csv` is modelled by `StoreState`: an in-memory list of rows plus the
list of rows last written durably.  `df.to_csv` is modelled by a boolean
`persistOk` parameter: `true` means the durable write succeeds (the file
now equals the in-memory table), `false` means it raises (the file keeps
its previous contents and the exception propagates out of the handler).
-/

namespace Spec2Proof

/-- Decidable equality for `Except`, used to evaluate the model at
concrete inputs. -/
instance {ε α : Type} [DecidableEq ε] [DecidableEq α] : DecidableEq (Except ε α) := fun x y =>
  match x, y with
  | .ok a, .ok b =>
    if h : a = b then .isTrue (by rw [h])
    else .isFalse (fun he => h (by injection he))
  | .error a, .error b =>
    if h : a = b then .isTrue (by rw [h])
    else .isFalse (fun he => h (by injection he))
  | .ok _, .error _ => .isFalse (fun he => Except.noConfusion he)
  | .error _, .ok _ => .isFalse (fun he => Except.noConfusion he)

/-- Strings, modelled at character level. -/
abbrev Str := List Char

/-- The whitespace characters stripped by Python `str.strip()` /matched by
regex `\s` (restricted to the ASCII range, which covers every string this
service manipulates). -/
def isSpace (c : Char) : Bool :=
  c = ' ' || c = '\t' || c = '\n' || c = '\x0d' || c = '\x0b' || c = '\x0c'

/-- Python `s.strip()`: remove leading and trailing whitespace. -/
def pyStrip (s : Str) : Str :=
  ((s.dropWhile isSpace).reverse.dropWhile isSpace).reverse

/-- Python `s.split(sep)` for a single-character separator `sep`
(e.g. `"06.1875".split(".") = ["06", "1875"]`; the result is never empty
and `"".split(".") = [""]`). -/
def splitOnChar (sep : Char) : Str → List Str
  | [] => [[]]
  | c :: rest =>
    match splitOnChar sep rest with
    | [] => [[]]
    | g :: gs => if c = sep then [] :: g :: gs else (c :: g) :: gs

/-- Python `v.replace("ca. ", "")` (main.py line 77): remove every
(leftmost, non-overlapping) occurrence of the exact four-character text
`"ca. "`. -/
def removeCaMarkers : Str → Str
  | [] => []
  | 'c' :: 'a' :: '.' :: ' ' :: rest => removeCaMarkers rest
  | c :: rest => c :: removeCaMarkers rest

/-- Numeric value of a list of ASCII digit characters. -/
def digitsToNat (ds : Str) : Nat :=
  ds.foldl (fun a c => a * 10 + (c.toNat - 48)) 0

/-- Python `int(s)`: optional surrounding whitespace, an optional sign, then
one or more decimal digits (the forms that arise from this service's
inputs). Returns `none` when `int` would raise `ValueError`. -/
def pyInt (s : Str) : Option Int :=
  let t := pyStrip s
  if t.head? = some '-' then
    if t.tail ≠ [] ∧ t.tail.all Char.isDigit then some (-(digitsToNat t.tail : Int)) else none
  else if t.head? = some '+' then
    if t.tail ≠ [] ∧ t.tail.all Char.isDigit then some ((digitsToNat t.tail : Int)) else none
  else
    if t ≠ [] ∧ t.all Char.isDigit then some ((digitsToNat t : Int)) else none

/-- `calendar.isleap(y)`. -/
def isleap (y : Nat) : Bool :=
  y % 4 = 0 && (y % 100 ≠ 0 || y % 400 = 0)

/-- Number of days of month `m` of year `y` (`calendar.monthrange(y, m)[1]`,
i.e. `calendar.mdays[m]` plus the leap-day for February). -/
def monthLength (y m : Nat) : Nat :=
  if m = 2 then (if isleap y then 29 else 28)
  else if m = 4 ∨ m = 6 ∨ m = 9 ∨ m = 11 then 30
  else 31

/-- A `datetime.date` value. -/
structure PyDate where
  year : Nat
  month : Nat
  day : Nat
deriving DecidableEq, Repr

/-- Total order on dates, via the obvious numeric key (fields of any
constructed `PyDate` are bounded, so the key is faithful). -/
def PyDate.key (d : PyDate) : Nat := d.year * 10000 + d.month * 100 + d.day

/-- `d1 <= d2` on `datetime.date` values. -/
def PyDate.le (d1 d2 : PyDate) : Bool := d1.key ≤ d2.key

/-- The `datetime.date(y, m, d)` constructor: succeeds exactly when
`MINYEAR = 1 <= y <= 9999 = MAXYEAR`, `1 <= m <= 12` and
`1 <= d <=` the length of that month; otherwise raises `ValueError`
(modelled as `none`). -/
def mkDate (y m d : Int) : Option PyDate :=
  if 1 ≤ y ∧ y ≤ 9999 ∧ 1 ≤ m ∧ m ≤ 12 ∧ 1 ≤ d ∧ d ≤ (monthLength y.toNat m.toNat : Int) then
    some ⟨y.toNat, m.toNat, d.toNat⟩
  else none

/-- `birth_date = date(1875, 6, 6)` (main.py line 23). -/
def birth_date : PyDate := ⟨1875, 6, 6⟩

/-- `death_date = date(1955, 8, 12)` (main.py line 24). -/
def death_date : PyDate := ⟨1955, 8, 12⟩

/-- Outcomes of `Correspondence.check_date_possible`:
`format` is the `ValueError` re-raised from the date-construction block
(a date-format validation error), `range s e` is the `ValueError` raised by
the lifespan-overlap check (its message names the offending interval
`[s, e]` and the fixed lifespan bounds 06.06.1875 - 12.08.1955), and
`unboundLocal` is the `UnboundLocalError` escaping the validator when it
reads the never-assigned `end_date` variable of the `MM.YYYY` branch. -/
inductive DateErr where
  | format : DateErr
  | range : PyDate → PyDate → DateErr
  | unboundLocal : DateErr
deriving DecidableEq, Repr

/-- The date-construction block of `check_date_possible` (main.py lines
78-92), acting on `processed_date_str.split(".")`.  Returns the assigned
`start_date` and, when it was assigned, `end_date` (`none` records that the
two-part `MM.YYYY` branch leaves `end_date` unbound).  `format` models any
`ValueError` raised inside the `try` (from `int`, `calendar.monthrange` or
`date`). -/
def parseParts (parts : List Str) : Except DateErr (PyDate × Option PyDate) :=
  if parts.length = 3 then
    match pyInt (parts.getD 0 []), pyInt (parts.getD 1 []), pyInt (parts.getD 2 []) with
    | some d, some m, some y =>
      match mkDate y m d with
      | some dt => .ok (dt, some dt)
      | none => .error .format
    | _, _, _ => .error .format
  else if parts.length = 2 then
    match pyInt (parts.getD 0 []), pyInt (parts.getD 1 []) with
    | some m, some y =>
      -- calendar.monthrange(y, m) checks 1 <= m <= 12 (else IllegalMonthError,
      -- a ValueError) and computes weekday(y, m, 1), which requires
      -- 1 <= y <= 9999; date(y, m, monthrange(y, m)[1]) then always succeeds.
      -- Only start_date is assigned; end_date stays unbound.
      if 1 ≤ m ∧ m ≤ 12 ∧ 1 ≤ y ∧ y ≤ 9999 then
        .ok (⟨y.toNat, m.toNat, monthLength y.toNat m.toNat⟩, none)
      else .error .format
    | _, _ => .error .format
  else
    match pyInt (parts.getD 0 []) with
    | some y =>
      match mkDate y 1 1, mkDate y 12 31 with
      | some s, some e => .ok (s, some e)
      | _, _ => .error .format
    | none => .error .format

/-- The preprocessing and date-construction part of `check_date_possible`:
`v.replace("ca. ", "").strip().split(".")` fed to the construction block. -/
def parseDateExpr (v : Str) : Except DateErr (PyDate × Option PyDate) :=
  parseParts (splitOnChar '.' (pyStrip (removeCaMarkers v)))

/-- The lifespan-overlap check of `check_date_possible` (main.py lines
94-98): `if not (start_date <= death_date and end_date >= birth_date): raise`.
When `end_date` was never assigned (the `MM.YYYY` branch) this line — or the
error message, which interpolates `end_date` — raises `UnboundLocalError`:
if `start_date <= death_date` holds, evaluating the conjunct
`end_date >= birth_date` raises; otherwise the f-string of the raised
`ValueError` reads `end_date` and raises. -/
def rangeCheck (s : PyDate) (e? : Option PyDate) : Except DateErr Unit :=
  match e? with
  | none => .error .unboundLocal
  | some e =>
    if PyDate.le s death_date ∧ PyDate.le birth_date e then .ok ()
    else .error (.range s e)

/-- `Correspondence.check_date_possible` (main.py lines 74-100): parse the
date expression, check lifespan overlap, and return the original string
unchanged. -/
def check_date_possible (v : Str) : Except DateErr Str :=
  match parseDateExpr v with
  | .error err => .error err
  | .ok (s, e?) =>
    match rangeCheck s e? with
    | .error err => .error err
    | .ok _ => .ok v

/-- `s` consists of exactly `n` ASCII digits. -/
def isDigits (s : Str) (n : Nat) : Bool :=
  s.length = n && s.all Char.isDigit

/-- The alternation `\d{2}\.\d{2}\.\d{4}|\d{2}\.\d{4}|\d{4}` of
`date_pattern` (main.py line 19).  A string matches one of the three
alternatives exactly when splitting it on `'.'` yields digit groups of the
corresponding widths (digits contain no dot, so the split is faithful). -/
def matchesDateCore (s : Str) : Bool :=
  match splitOnChar '.' s with
  | [a, b, c] => isDigits a 2 && isDigits b 2 && isDigits c 4
  | [a, b] => isDigits a 2 && isDigits b 4
  | [a] => isDigits a 4
  | _ => false

/-- `date_pattern = r"^(ca\.\s*)?(\d{2}\.\d{2}\.\d{4}|\d{2}\.\d{4}|\d{4})$"`
(main.py line 19), the declarative pattern constraint on the `date` field.
The optional group matches the literal `ca.` followed by any number
(including zero) of whitespace characters; since the core alternatives
start with a digit, the greedy `\s*` is equivalent to dropping all
whitespace after `ca.`. -/
def matchesDatePattern (s : Str) : Bool :=
  matchesDateCore s ||
  ['c', 'a', '.'].isPrefixOf s && matchesDateCore ((s.drop 3).dropWhile isSpace)

/-- `reference_code_pattern = r"^B-I-[A-Z]+-\d+(\.\d+)?$"` (main.py line 18),
the declarative pattern constraint on the `reference_code` field.
`[A-Z]+` is greedy and `-` is not an uppercase letter, and `\d+` is greedy
and `.` is not a digit, so take/drop-while translation is exact. -/
def matchesRefCode (s : Str) : Bool :=
  match s with
  | 'B' :: '-' :: 'I' :: '-' :: rest =>
    rest.takeWhile Char.isUpper ≠ [] &&
      match rest.dropWhile Char.isUpper with
      | '-' :: num =>
        num.takeWhile Char.isDigit ≠ [] &&
          match num.dropWhile Char.isDigit with
          | [] => true
          | '.' :: ds2 => ds2 ≠ [] && ds2.all Char.isDigit
          | _ => false
      | _ => false
  | _ => false

/-- ASCII lower-casing, Python `str.lower()` on the names the service
compares (the modelled name table below is pure ASCII). -/
def lowerStr (s : Str) : Str := s.map Char.toLower

/-- Modelled from the spec: the reference locale's language display-name
table (`Locale("de").languages.values()`), provided by the external
babel/CLDR dataset, which is not part of `src/`.  Per the spec it is a
canonical localized name set containing names such as "Deutsch" and
"Englisch"; per the spec's base canonical table it does not contain the
sample fixture string "Klingonisch". -/
def germanLanguageNames : List Str :=
  ["Deutsch".toList, "Englisch".toList, "Franzoesisch".toList, "Italienisch".toList]

/-- Failure of `check_language_possible`: the `ValueError` reporting an
unknown language name. -/
inductive LangErr where
  | unknownLanguage : LangErr
deriving DecidableEq, Repr

/-- `Correspondence.check_language_possible` (main.py lines 109-119):
strip the input, compare its lower-cased form against the lower-cased
display-name set, and on success return the **stripped** input with its
original casing. -/
def check_language_possible (v : Str) : Except LangErr Str :=
  if (germanLanguageNames.map lowerStr).contains (lowerStr (pyStrip v)) then
    .ok (pyStrip v)
  else
    .error .unknownLanguage

/-- One row of the DataFrame `df` / the persisted CSV table, with the
catalogue's native column labels rendered as field names
(`Signatur`, `Titel`, `Form und Inhalt`, `Entstehungszeitraum`,
`Bemerkungen zur Datierung`, `Bemerkungen zum Umfang`, `Sprachen`, `ID`). -/
structure Row where
  signatur : Str
  titel : Str
  formUndInhalt : Str
  entstehungszeitraum : Str
  bemerkungenZurDatierung : Str
  bemerkungenZumUmfang : Str
  sprachen : Str
  id : Int
deriving DecidableEq, Repr

/-- A validated `Correspondence` request body (the pydantic model of
main.py lines 27-71), as received by the POST/PUT handlers. -/
structure Correspondence where
  reference_code : Str
  title : Str
  scope_and_content : Str
  date : Str
  notes_on_date : Str
  extent : Str
  language : Str
  id : Int
deriving DecidableEq, Repr

/-- The global state the handlers act on: the in-memory DataFrame `df` and
the rows currently stored in the durable CSV file `outgoing.csv`. -/
structure StoreState where
  df : List Row
  file : List Row
deriving DecidableEq, Repr

/-- Errors surfaced by the four mutating/reading handlers.
`duplicateId`, `duplicateSignatur` and `idMismatch` are the HTTP 400
rejections, `notFound` the HTTP 404, and `persistence` models an exception
raised by `df.to_csv` (which escapes the handler as a server fault). -/
inductive ApiErr where
  | duplicateId : Int → ApiErr
  | duplicateSignatur : Str → ApiErr
  | idMismatch : Int → Int → ApiErr
  | notFound : Int → ApiErr
  | persistence : ApiErr
deriving DecidableEq, Repr

/-- The fixed sentinel `"Daten fehlen"` substituted for missing data. -/
def missingData : Str := "Daten fehlen".toList

/-- `value.strip() or "Daten fehlen"`: strip, and replace a resulting empty
string by the sentinel (the falsy string in Python is exactly `""`). -/
def stripOrMissing (s : Str) : Str :=
  if pyStrip s = [] then missingData else pyStrip s

/-- The `new_entry` dict built by `add_correspondence` (main.py lines
153-166): the candidate's fields, with every string value stripped and
empty results replaced by the sentinel (the `ID` value is an `int` and is
skipped by the `isinstance(value, str)` test). -/
def normalizeEntry (c : Correspondence) : Row where
  signatur := stripOrMissing c.reference_code
  titel := stripOrMissing c.title
  formUndInhalt := stripOrMissing c.scope_and_content
  entstehungszeitraum := stripOrMissing c.date
  bemerkungenZurDatierung := stripOrMissing c.notes_on_date
  bemerkungenZumUmfang := stripOrMissing c.extent
  sprachen := stripOrMissing c.language
  id := c.id

/-- The `new_entry` dict built by `replace_correspondence` (main.py lines
205-214): fields are taken verbatim, except that an **empty** (falsy)
`notes_on_date` is replaced by the sentinel (`correspondence.notes_on_date
or "Daten fehlen"`); no stripping is applied. -/
def replaceEntry (c : Correspondence) : Row where
  signatur := c.reference_code
  titel := c.title
  formUndInhalt := c.scope_and_content
  entstehungszeitraum := c.date
  bemerkungenZurDatierung := if c.notes_on_date = [] then missingData else c.notes_on_date
  bemerkungenZumUmfang := c.extent
  sprachen := c.language
  id := c.id

/-- `df.index[df["ID"] == id].tolist()` followed by taking element `[0]`:
the position of the first row with the given predicate. -/
def firstIdx? (p : Row → Bool) : List Row → Option Nat
  | [] => none
  | r :: rest => if p r then some 0 else (firstIdx? p rest).map (· + 1)

/-- `add_correspondence` (main.py lines 141-171).  Returns the final global
state together with the handler's outcome.  On a `to_csv` failure
(`persistOk = false`) the exception propagates **after** `df` was already
reassigned, so the in-memory table keeps the appended row while the file
keeps its old contents. -/
def add_correspondence (persistOk : Bool) (st : StoreState) (c : Correspondence) :
    StoreState × Except ApiErr Row :=
  if st.df.any (fun r => r.id == c.id) then
    (st, .error (.duplicateId c.id))
  else if st.df.any (fun r => r.signatur == c.reference_code) then
    (st, .error (.duplicateSignatur c.reference_code))
  else if persistOk then
    ({ df := st.df ++ [normalizeEntry c], file := st.df ++ [normalizeEntry c] },
     .ok (normalizeEntry c))
  else
    ({ df := st.df ++ [normalizeEntry c], file := st.file }, .error .persistence)

/-- `delete_correspondence` (main.py lines 174-185): drop the first row
with the given id (404 when there is none), persist, and answer with the
deleted **id** (the JSON body is `{"message": …, "deleted_id": id}`). -/
def delete_correspondence (persistOk : Bool) (st : StoreState) (id : Int) :
    StoreState × Except ApiErr Int :=
  match firstIdx? (fun r => r.id == id) st.df with
  | none => (st, .error (.notFound id))
  | some i =>
    if persistOk then
      ({ df := st.df.eraseIdx i, file := st.df.eraseIdx i }, .ok id)
    else
      ({ df := st.df.eraseIdx i, file := st.file }, .error .persistence)

/-- `replace_correspondence` (main.py lines 188-221): require the body id
to equal the path id, require an existing row, require the signature to be
absent from every **other** row, then overwrite the row in place and
persist. -/
def replace_correspondence (persistOk : Bool) (st : StoreState) (id : Int)
    (c : Correspondence) : StoreState × Except ApiErr Row :=
  if c.id ≠ id then
    (st, .error (.idMismatch c.id id))
  else
    match firstIdx? (fun r => r.id == id) st.df with
    | none => (st, .error (.notFound id))
    | some i =>
      if (st.df.eraseIdx i).any (fun r => r.signatur == c.reference_code) then
        (st, .error (.duplicateSignatur c.reference_code))
      else if persistOk then
        ({ df := st.df.set i (replaceEntry c), file := st.df.set i (replaceEntry c) },
         .ok (replaceEntry c))
      else
        ({ df := st.df.set i (replaceEntry c), file := st.file }, .error .persistence)

/-- `get_one_correspondence` (main.py lines 129-138): 404 when no row has
the id, otherwise the first matching row (`row.iloc[0]`). -/
def get_one_correspondence (st : StoreState) (id : Int) : Except ApiErr Row :=
  match firstIdx? (fun r => r.id == id) st.df with
  | none => .error (.notFound id)
  | some i => .ok (st.df.getD i ⟨[], [], [], [], [], [], [], 0⟩)

/-- Rendering of a decimal digit. -/
def natDigit : Nat → Char
  | 0 => '0' | 1 => '1' | 2 => '2' | 3 => '3' | 4 => '4'
  | 5 => '5' | 6 => '6' | 7 => '7' | 8 => '8' | _ => '9'

/-- The two-digit rendering `DD` / `MM` of a number below 100. -/
def fmt2 (n : Nat) : Str := [natDigit (n / 10), natDigit (n % 10)]

/-- The four-digit rendering `YYYY` of a number below 10000. -/
def fmt4 (n : Nat) : Str :=
  [natDigit (n / 1000), natDigit (n / 100 % 10), natDigit (n / 10 % 10), natDigit (n % 10)]

/-- Calendrical validity of `(year, month, day)`: exactly the success
condition of the `datetime.date` constructor (year within Python's
`MINYEAR..MAXYEAR`, month within `1..12`, day within the month computed
with the Gregorian leap-year rule). -/
def isValidDate (y m d : Nat) : Prop :=
  1 ≤ y ∧ y ≤ 9999 ∧ 1 ≤ m ∧ m ≤ 12 ∧ 1 ≤ d ∧ d ≤ monthLength y m

instance (y m d : Nat) : Decidable (isValidDate y m d) := by
  unfold isValidDate
  infer_instance

/-- The date expression `DD.MM.YYYY` built from numeric components. -/
def ddmmyyyy (d m y : Nat) : Str := fmt2 d ++ ('.' :: (fmt2 m ++ ('.' :: fmt4 y)))

/-- The store invariants claimed by the spec for every committed store
state: ids pairwise distinct and non-negative, reference codes pairwise
distinct. -/
def Invariant (rows : List Row) : Prop :=
  (rows.map Row.id).Nodup ∧ (∀ r ∈ rows, 0 ≤ r.id) ∧ (rows.map Row.signatur).Nodup

instance (rows : List Row) : Decidable (Invariant rows) := by
  unfold Invariant
  infer_instance

/-- A string that is neither empty nor whitespace-only. -/
def goodStr (s : Str) : Prop := pyStrip s ≠ []

instance (s : Str) : Decidable (goodStr s) := by
  unfold goodStr
  infer_instance

/-- Every string field of the row is non-empty and non-whitespace-only. -/
def goodRow (r : Row) : Prop :=
  goodStr r.signatur ∧ goodStr r.titel ∧ goodStr r.formUndInhalt ∧
  goodStr r.entstehungszeitraum ∧ goodStr r.bemerkungenZurDatierung ∧
  goodStr r.bemerkungenZumUmfang ∧ goodStr r.sprachen

instance (r : Row) : Decidable (goodRow r) := by
  unfold goodRow
  infer_instance

/-- A sample stored row (id 0), used to evaluate the operations at
concrete inputs. -/
def exRow : Row :=
  ⟨"B-I-ALBER-1".toList, "Brief".toList, "Inhalt".toList, "01.01.1900".toList,
   "Notiz".toList, "1 Bl./1 S.".toList, "Deutsch".toList, 0⟩

/-- A different sample row that also carries id 0. -/
def exRowB : Row := { exRow with titel := "Anders".toList }

/-- A sample store state holding exactly `exRow`, in memory and on disk. -/
def exState : StoreState := ⟨[exRow], [exRow]⟩

/-- A sample valid candidate with a fresh id and reference code. -/
def exCand : Correspondence :=
  ⟨"B-I-CANT-2".toList, "Zwei".toList, "Inhalt".toList, "02.01.1900".toList,
   "".toList, "1 Bl./1 S.".toList, "Deutsch".toList, 1⟩

/-- A candidate whose id collides with the stored row. -/
def exDup : Correspondence := { exCand with id := 0 }

/-- A candidate targeting id 0 whose title is whitespace-only (the `title`
field carries no declarative constraint, so such a body passes request
validation). -/
def exWs : Correspondence := { exCand with id := 0, title := [' '] }

/-! ### Helper lemmas: characters and whitespace -/

lemma isSpace_cases {c : Char} (h : isSpace c = true) :
    c = ' ' ∨ c = '\t' ∨ c = '\n' ∨ c = '\x0d' ∨ c = '\x0b' ∨ c = '\x0c' := by
  unfold isSpace at h
  simp only [Bool.or_eq_true, decide_eq_true_eq] at h
  tauto

lemma ne_of_isDigit {c d : Char} (h1 : c.isDigit = true) (h2 : d.isDigit = false) : c ≠ d := by
  intro he; subst he; rw [h1] at h2; cases h2

lemma isSpace_false_of_isDigit {c : Char} (h : c.isDigit = true) : isSpace c = false := by
  rcases Bool.eq_false_or_eq_true (isSpace c) with ht | hf
  · rcases isSpace_cases ht with h1 | h1 | h1 | h1 | h1 | h1 <;> subst h1 <;> simp at h
  · exact hf

lemma isSpace_false_of_isUpper {c : Char} (h : c.isUpper = true) : isSpace c = false := by
  rcases Bool.eq_false_or_eq_true (isSpace c) with ht | hf
  · rcases isSpace_cases ht with h1 | h1 | h1 | h1 | h1 | h1 <;> subst h1 <;> simp at h
  · exact hf

/-! ### Helper lemmas: dropWhile, pyStrip -/

lemma dropWhile_eq_self_of_all {p : Char → Bool} {l : Str}
    (h : ∀ c ∈ l, p c = false) : l.dropWhile p = l := by
  cases l with
  | nil => rfl
  | cons c rest =>
    rw [List.dropWhile_cons, h c (by simp)]
    simp

lemma dropWhile_eq_nil_of_all {p : Char → Bool} {l : Str}
    (h : ∀ c ∈ l, p c = true) : l.dropWhile p = [] := by
  induction l with
  | nil => rfl
  | cons c rest ih =>
    rw [List.dropWhile_cons, h c (by simp)]
    simp only [if_true]
    exact ih (fun d hd => h d (by simp [hd]))

lemma mem_dropWhile_of_not {p : Char → Bool} {l : Str} {c : Char}
    (hm : c ∈ l) (hc : p c = false) : c ∈ l.dropWhile p := by
  induction l with
  | nil => cases hm
  | cons a rest ih =>
    rw [List.dropWhile_cons]
    by_cases ha : p a = true
    · rw [ha]
      simp only [if_true]
      rcases List.mem_cons.mp hm with he | hr
      · subst he; rw [hc] at ha; cases ha
      · exact ih hr
    · rw [Bool.not_eq_true] at ha
      rw [ha]
      simpa using hm

lemma head?_dropWhile {p : Char → Bool} {l : Str} {c : Char}
    (h : (l.dropWhile p).head? = some c) : p c = false := by
  induction l with
  | nil => cases h
  | cons a rest ih =>
    rw [List.dropWhile_cons] at h
    by_cases ha : p a = true
    · rw [ha] at h; simp only [if_true] at h; exact ih h
    · rw [Bool.not_eq_true] at ha
      rw [ha] at h
      simp only [Bool.false_eq_true, if_false, List.head?_cons, Option.some.injEq] at h
      subst h; exact ha

lemma pyStrip_eq_self_of_no_space {s : Str}
    (h : ∀ c ∈ s, isSpace c = false) : pyStrip s = s := by
  unfold pyStrip
  rw [dropWhile_eq_self_of_all h,
      dropWhile_eq_self_of_all (fun c hc => h c (List.mem_reverse.mp hc)),
      List.reverse_reverse]

lemma pyStrip_eq_nil_of_all_space {s : Str}
    (h : ∀ c ∈ s, isSpace c = true) : pyStrip s = [] := by
  unfold pyStrip
  rw [dropWhile_eq_nil_of_all h]
  rfl

lemma mem_pyStrip_of_not_space {s : Str} {c : Char}
    (hm : c ∈ s) (hc : isSpace c = false) : c ∈ pyStrip s := by
  unfold pyStrip
  rw [List.mem_reverse]
  exact mem_dropWhile_of_not (List.mem_reverse.mpr (mem_dropWhile_of_not hm hc)) hc

lemma pyStrip_ne_nil_iff {s : Str} :
    pyStrip s ≠ [] ↔ ∃ c ∈ s, isSpace c = false := by
  constructor
  · intro h
    by_contra hno
    push_neg at hno
    exact h (pyStrip_eq_nil_of_all_space
      (fun c hc => by simpa using hno c hc))
  · rintro ⟨c, hm, hc⟩
    intro hnil
    have := mem_pyStrip_of_not_space hm hc
    rw [hnil] at this
    cases this

lemma exists_not_space_mem_pyStrip {s : Str} (h : pyStrip s ≠ []) :
    ∃ c ∈ pyStrip s, isSpace c = false := by
  have hwne : (s.dropWhile isSpace).reverse.dropWhile isSpace ≠ [] := by
    intro hn
    apply h
    unfold pyStrip
    rw [hn]
    rfl
  obtain ⟨c, hc⟩ : ∃ c, ((s.dropWhile isSpace).reverse.dropWhile isSpace).head? = some c := by
    cases hwe : (s.dropWhile isSpace).reverse.dropWhile isSpace with
    | nil => exact absurd hwe hwne
    | cons a t => exact ⟨a, rfl⟩
  refine ⟨c, ?_, head?_dropWhile hc⟩
  unfold pyStrip
  rw [List.mem_reverse]
  exact List.mem_of_mem_head? hc

lemma pyStrip_stripOrMissing_ne_nil (s : Str) : pyStrip (stripOrMissing s) ≠ [] := by
  unfold stripOrMissing
  by_cases h : pyStrip s = []
  · rw [if_pos h]
    decide
  · rw [if_neg h]
    obtain ⟨c, hm, hc⟩ := exists_not_space_mem_pyStrip h
    exact pyStrip_ne_nil_iff.mpr ⟨c, hm, hc⟩

/-! ### Helper lemmas: splitOnChar, removeCaMarkers -/

lemma splitOnChar_ne_nil (sep : Char) (s : Str) : splitOnChar sep s ≠ [] := by
  cases s with
  | nil => simp [splitOnChar]
  | cons c rest =>
    simp only [splitOnChar]
    cases he : splitOnChar sep rest with
    | nil => simp
    | cons g gs => by_cases hcs : c = sep <;> simp [hcs]

lemma splitOnChar_no_sep {sep : Char} {s : Str}
    (h : ∀ c ∈ s, c ≠ sep) : splitOnChar sep s = [s] := by
  induction s with
  | nil => rfl
  | cons c rest ih =>
    have hr := ih (fun d hd => h d (by simp [hd]))
    simp only [splitOnChar, hr]
    rw [if_neg (h c (by simp))]

lemma splitOnChar_append_sep {sep : Char} {xs ys : Str}
    (h : ∀ c ∈ xs, c ≠ sep) :
    splitOnChar sep (xs ++ sep :: ys) = xs :: splitOnChar sep ys := by
  induction xs with
  | nil =>
    rw [List.nil_append]
    cases he : splitOnChar sep ys with
    | nil => exact absurd he (splitOnChar_ne_nil sep ys)
    | cons g gs =>
      simp only [splitOnChar, he]
      simp
  | cons c rest ih =>
    have hr := ih (fun d hd => h d (by simp [hd]))
    rw [List.cons_append]
    simp only [splitOnChar, hr]
    rw [if_neg (h c (by simp))]

lemma removeCaMarkers_eq_self {s : Str} (h : ∀ c ∈ s, c ≠ 'c') :
    removeCaMarkers s = s := by
  induction s with
  | nil => rfl
  | cons c rest ih =>
    have hc : c ≠ 'c' := h c (by simp)
    have hrest : removeCaMarkers rest = rest := ih (fun d hd => h d (by simp [hd]))
    rw [removeCaMarkers.eq_def]
    split
    · rename_i heq
      cases heq
    · rename_i heq
      injection heq with h1 _
      exact absurd h1 hc
    · rename_i heq
      injection heq with h1 h2
      subst h1
      subst h2
      rw [hrest]

/-! ### Helper lemmas: digits, pyInt -/

lemma natDigit_isDigit {n : Nat} (h : n < 10) : (natDigit n).isDigit = true := by
  interval_cases n <;> decide

lemma natDigit_toNat {n : Nat} (h : n < 10) : (natDigit n).toNat = 48 + n := by
  interval_cases n <;> decide

lemma all_isDigit_fmt2 {n : Nat} (h : n < 100) : ∀ c ∈ fmt2 n, c.isDigit = true := by
  intro c hc
  rcases List.mem_cons.mp hc with h1 | hc2
  · subst h1; exact natDigit_isDigit (Nat.div_lt_of_lt_mul (by omega))
  · rcases List.mem_cons.mp hc2 with h1 | hc3
    · subst h1; exact natDigit_isDigit (Nat.mod_lt _ (by omega))
    · cases hc3

lemma all_isDigit_fmt4 {n : Nat} (h : n < 10000) : ∀ c ∈ fmt4 n, c.isDigit = true := by
  intro c hc
  have h1000 : n / 1000 < 10 := Nat.div_lt_of_lt_mul (by omega)
  rcases List.mem_cons.mp hc with h1 | hc2
  · subst h1; exact natDigit_isDigit h1000
  · rcases List.mem_cons.mp hc2 with h1 | hc3
    · subst h1; exact natDigit_isDigit (Nat.mod_lt _ (by omega))
    · rcases List.mem_cons.mp hc3 with h1 | hc4
      · subst h1; exact natDigit_isDigit (Nat.mod_lt _ (by omega))
      · rcases List.mem_cons.mp hc4 with h1 | hc5
        · subst h1; exact natDigit_isDigit (Nat.mod_lt _ (by omega))
        · cases hc5

lemma pyStrip_of_all_digits {s : Str} (h : ∀ c ∈ s, c.isDigit = true) :
    pyStrip s = s :=
  pyStrip_eq_self_of_no_space (fun c hc => isSpace_false_of_isDigit (h c hc))

/-- `pyInt` on a non-empty all-digit string is its numeric value. -/
lemma pyInt_all_digits {s : Str} (hne : s ≠ []) (h : ∀ c ∈ s, c.isDigit = true) :
    pyInt s = some (digitsToNat s : Int) := by
  unfold pyInt
  rw [pyStrip_of_all_digits h]
  have hhead : ∀ d : Char, s.head? = some d → d.isDigit = true := by
    intro d hd
    exact h d (List.mem_of_mem_head? hd)
  have hminus : ¬ s.head? = some '-' := by
    intro hc
    have := hhead _ hc
    simp at this
  have hplus : ¬ s.head? = some '+' := by
    intro hc
    have := hhead _ hc
    simp at this
  rw [if_neg hminus, if_neg hplus, if_pos ⟨hne, List.all_eq_true.mpr h⟩]

lemma digitsToNat_fmt2 {n : Nat} (h : n < 100) : digitsToNat (fmt2 n) = n := by
  unfold digitsToNat fmt2
  rw [List.foldl_cons, List.foldl_cons, List.foldl_nil]
  rw [natDigit_toNat (Nat.div_lt_of_lt_mul (by omega)),
      natDigit_toNat (Nat.mod_lt _ (by omega))]
  omega

lemma digitsToNat_fmt4 {n : Nat} (h : n < 10000) : digitsToNat (fmt4 n) = n := by
  unfold digitsToNat fmt4
  rw [List.foldl_cons, List.foldl_cons, List.foldl_cons, List.foldl_cons, List.foldl_nil]
  rw [natDigit_toNat (Nat.div_lt_of_lt_mul (by omega)),
      natDigit_toNat (Nat.mod_lt _ (by omega)),
      natDigit_toNat (Nat.mod_lt _ (by omega)),
      natDigit_toNat (Nat.mod_lt _ (by omega))]
  omega

lemma pyInt_fmt2 {n : Nat} (h : n < 100) : pyInt (fmt2 n) = some (n : Int) := by
  rw [pyInt_all_digits (by simp [fmt2]) (all_isDigit_fmt2 h), digitsToNat_fmt2 h]

lemma pyInt_fmt4 {n : Nat} (h : n < 10000) : pyInt (fmt4 n) = some (n : Int) := by
  rw [pyInt_all_digits (by simp [fmt4]) (all_isDigit_fmt4 h), digitsToNat_fmt4 h]

/-! ### Helper lemmas: dates -/

lemma mkDate_nat (y m d : Nat) :
    mkDate (y : Int) (m : Int) (d : Int) =
      if isValidDate y m d then some ⟨y, m, d⟩ else none := by
  unfold mkDate isValidDate
  simp only [Int.toNat_natCast]
  split_ifs with h1 h2
  · rfl
  · exfalso
    apply h2
    omega
  · exfalso
    apply h1
    omega
  · rfl

lemma chars_ddmmyyyy {d m y : Nat} (hd : d < 100) (hm : m < 100) (hy : y < 10000) :
    ∀ c ∈ ddmmyyyy d m y, c.isDigit = true ∨ c = '.' := by
  intro c hc
  unfold ddmmyyyy at hc
  rcases List.mem_append.mp hc with h1 | h2
  · exact .inl (all_isDigit_fmt2 hd c h1)
  · rcases List.mem_cons.mp h2 with h3 | h4
    · exact .inr h3
    · rcases List.mem_append.mp h4 with h5 | h6
      · exact .inl (all_isDigit_fmt2 hm c h5)
      · rcases List.mem_cons.mp h6 with h7 | h8
        · exact .inr h7
        · exact .inl (all_isDigit_fmt4 hy c h8)

lemma splitOnChar_ddmmyyyy {d m y : Nat} (hd : d < 100) (hm : m < 100) (hy : y < 10000) :
    splitOnChar '.' (ddmmyyyy d m y) = [fmt2 d, fmt2 m, fmt4 y] := by
  unfold ddmmyyyy
  have hnd : ∀ c ∈ fmt2 d, c ≠ '.' :=
    fun c hc => ne_of_isDigit (all_isDigit_fmt2 hd c hc) (by decide)
  have hnm : ∀ c ∈ fmt2 m, c ≠ '.' :=
    fun c hc => ne_of_isDigit (all_isDigit_fmt2 hm c hc) (by decide)
  have hny : ∀ c ∈ fmt4 y, c ≠ '.' :=
    fun c hc => ne_of_isDigit (all_isDigit_fmt4 hy c hc) (by decide)
  rw [splitOnChar_append_sep hnd, splitOnChar_append_sep hnm, splitOnChar_no_sep hny]

/-- On a pure `DD.MM.YYYY` expression, the preprocessing steps of
`check_date_possible` are the identity and the split yields the three
numeric components. -/
lemma parseDateExpr_ddmmyyyy {d m y : Nat} (hd : d < 100) (hm : m < 100) (hy : y < 10000) :
    parseDateExpr (ddmmyyyy d m y) = parseParts [fmt2 d, fmt2 m, fmt4 y] := by
  unfold parseDateExpr
  have hall := chars_ddmmyyyy hd hm hy
  have hnc : ∀ c ∈ ddmmyyyy d m y, c ≠ 'c' := by
    intro c hc
    rcases hall c hc with h1 | h1
    · exact ne_of_isDigit h1 (by decide)
    · subst h1; decide
  have hns : ∀ c ∈ ddmmyyyy d m y, isSpace c = false := by
    intro c hc
    rcases hall c hc with h1 | h1
    · exact isSpace_false_of_isDigit h1
    · subst h1; decide
  rw [removeCaMarkers_eq_self hnc, pyStrip_eq_self_of_no_space hns,
      splitOnChar_ddmmyyyy hd hm hy]

lemma parseParts_three {d m y : Nat} (hd : d < 100) (hm : m < 100) (hy : y < 10000) :
    parseParts [fmt2 d, fmt2 m, fmt4 y] =
      if isValidDate y m d then .ok (⟨y, m, d⟩, some ⟨y, m, d⟩) else .error .format := by
  unfold parseParts
  simp only [List.length_cons, List.length_nil, List.getD_cons_zero, List.getD_cons_succ,
    if_pos]
  rw [pyInt_fmt2 hd, pyInt_fmt2 hm, pyInt_fmt4 hy]
  simp only [mkDate_nat y m d]
  split_ifs with h
  · rfl
  · rfl

/-! ### Helper lemmas: lists backing the store -/

lemma map_eraseIdx {α β : Type} (f : α → β) (l : List α) (i : Nat) :
    (l.eraseIdx i).map f = (l.map f).eraseIdx i := by
  induction l generalizing i with
  | nil => rfl
  | cons a rest ih =>
    cases i with
    | zero => rfl
    | succ j => simp [List.eraseIdx, ih j]

lemma getD_map {α β : Type} (f : α → β) (l : List α) (i : Nat) (d : α) (hi : i < l.length) :
    (l.map f).getD i (f d) = f (l.getD i d) := by
  induction l generalizing i with
  | nil => cases hi
  | cons a rest ih =>
    cases i with
    | zero => rfl
    | succ j =>
      simp only [List.map_cons, List.getD_cons_succ]
      exact ih j (by simpa using hi)

lemma set_getD_self {α : Type} (l : List α) (i : Nat) (d : α) (hi : i < l.length) :
    l.set i (l.getD i d) = l := by
  induction l generalizing i with
  | nil => cases hi
  | cons a rest ih =>
    cases i with
    | zero => rfl
    | succ j =>
      simp only [List.getD_cons_succ, List.set_cons_succ, List.cons.injEq, true_and]
      exact ih j (by simpa using hi)

lemma nodup_set {α : Type} {l : List α} {i : Nat} {a : α}
    (hn : l.Nodup) (hi : i < l.length) (ha : a ∉ l.eraseIdx i) :
    (l.set i a).Nodup := by
  induction l generalizing i with
  | nil => cases hi
  | cons b rest ih =>
    cases i with
    | zero =>
      simp only [List.eraseIdx] at ha
      simp only [List.set_cons_zero, List.nodup_cons]
      exact ⟨ha, (List.nodup_cons.mp hn).2⟩
    | succ j =>
      simp only [List.eraseIdx, List.mem_cons, not_or] at ha
      simp only [List.set_cons_succ, List.nodup_cons]
      rcases List.nodup_cons.mp hn with ⟨hb, hrest⟩
      constructor
      · intro hmem
        rcases List.mem_or_eq_of_mem_set hmem with h1 | h1
        · exact hb h1
        · exact ha.1 h1.symm
      · exact ih hrest (by simpa using hi) ha.2

lemma nodup_getD_not_mem_eraseIdx {α : Type} {l : List α} {i : Nat} (d : α)
    (hn : l.Nodup) (hi : i < l.length) :
    l.getD i d ∉ l.eraseIdx i := by
  induction l generalizing i with
  | nil => cases hi
  | cons b rest ih =>
    cases i with
    | zero =>
      simp only [List.getD_cons_zero, List.eraseIdx]
      exact (List.nodup_cons.mp hn).1
    | succ j =>
      simp only [List.getD_cons_succ, List.eraseIdx, List.mem_cons, not_or]
      rcases List.nodup_cons.mp hn with ⟨hb, hrest⟩
      constructor
      · intro he
        apply hb
        rw [← he, List.getD_eq_getElem _ _ (by simpa using hi)]
        exact List.getElem_mem _
      · exact ih hrest (by simpa using hi)

lemma firstIdx?_eq_none_iff {p : Row → Bool} {l : List Row} :
    firstIdx? p l = none ↔ ∀ r ∈ l, p r = false := by
  induction l with
  | nil => simp [firstIdx?]
  | cons a rest ih =>
    simp only [firstIdx?]
    by_cases ha : p a = true
    · simp [ha]
    · rw [Bool.not_eq_true] at ha
      simp [ha, ih]

lemma firstIdx?_lt_length {p : Row → Bool} {l : List Row} {i : Nat}
    (h : firstIdx? p l = some i) : i < l.length := by
  induction l generalizing i with
  | nil => cases h
  | cons a rest ih =>
    simp only [firstIdx?] at h
    by_cases ha : p a = true
    · rw [if_pos ha] at h
      injection h with h
      subst h
      simp
    · rw [Bool.not_eq_true] at ha
      rw [ha] at h
      simp only [Bool.false_eq_true, if_false, Option.map_eq_some'] at h
      obtain ⟨j, hj, hij⟩ := h
      subst hij
      have := ih hj
      simp
      omega

lemma firstIdx?_getD {p : Row → Bool} {l : List Row} {i : Nat} (d : Row)
    (h : firstIdx? p l = some i) : p (l.getD i d) = true := by
  induction l generalizing i with
  | nil => cases h
  | cons a rest ih =>
    simp only [firstIdx?] at h
    by_cases ha : p a = true
    · rw [if_pos ha] at h
      injection h with h
      subst h
      simpa using ha
    · rw [Bool.not_eq_true] at ha
      rw [ha] at h
      simp only [Bool.false_eq_true, if_false, Option.map_eq_some'] at h
      obtain ⟨j, hj, hij⟩ := h
      subst hij
      simpa using ih hj

/-! ### Helper lemmas: the reference-code pattern -/

lemma refCode_no_space {s : Str} (h : matchesRefCode s = true) :
    ∀ c ∈ s, isSpace c = false := by
  unfold matchesRefCode at h
  split at h
  case h_2 => simp at h
  case h_1 rest =>
    simp only [Bool.and_eq_true, decide_eq_true_eq] at h
    obtain ⟨hletters, hmatch⟩ := h
    intro c hc
    rcases List.mem_cons.mp hc with h1 | hc1
    · subst h1; decide
    rcases List.mem_cons.mp hc1 with h1 | hc2
    · subst h1; decide
    rcases List.mem_cons.mp hc2 with h1 | hc3
    · subst h1; decide
    rcases List.mem_cons.mp hc3 with h1 | hc4
    · subst h1; decide
    have hsplitRest := List.takeWhile_append_dropWhile Char.isUpper rest
    rw [← hsplitRest] at hc4
    rcases List.mem_append.mp hc4 with hup | hdrop
    · exact isSpace_false_of_isUpper (List.mem_takeWhile_imp hup)
    · split at hmatch
      case h_2 => simp at hmatch
      case h_1 num heq =>
        rw [heq] at hdrop
        simp only [Bool.and_eq_true, decide_eq_true_eq] at hmatch
        obtain ⟨hds, htail⟩ := hmatch
        rcases List.mem_cons.mp hdrop with h1 | hnum
        · subst h1; decide
        have hsplitNum := List.takeWhile_append_dropWhile Char.isDigit num
        rw [← hsplitNum] at hnum
        rcases List.mem_append.mp hnum with hdig | hrest2
        · exact isSpace_false_of_isDigit (List.mem_takeWhile_imp hdig)
        · split at htail
          · rename_i heq2
            rw [heq2] at hrest2
            cases hrest2
          · rename_i ds2 heq2
            rw [heq2] at hrest2
            simp only [Bool.and_eq_true, decide_eq_true_eq] at htail
            rcases List.mem_cons.mp hrest2 with h1 | hds2
            · subst h1; decide
            · exact isSpace_false_of_isDigit (List.all_eq_true.mp htail.2 c hds2)
          · simp at htail

lemma refCode_ne_nil {s : Str} (h : matchesRefCode s = true) : s ≠ [] := by
  intro he
  subst he
  simp [matchesRefCode] at h

lemma stripOrMissing_refCode {s : Str} (h : matchesRefCode s = true) :
    stripOrMissing s = s := by
  unfold stripOrMissing
  rw [pyStrip_eq_self_of_no_space (refCode_no_space h)]
  rw [if_neg (refCode_ne_nil h)]

/-! ## The claims -/

/-- **C1** (code bug).  The claim — following the spec and the `date`
field's own documented grammar — says a `MM.YYYY` expression parses to
the interval from the first to the last day of that month, so that
`parse("06.1875")` returns [1875-06-01, 1875-06-30].  The code instead
assigns `start_date = date(y, m, calendar.monthrange(y, m)[1])` (the
**last** day of the month) and never assigns `end_date`, so the
lifespan-overlap check that follows reads an unbound variable and the
validator aborts with `UnboundLocalError` on every such input. -/
theorem C1_mm_yyyy_unbound_local :
    parseDateExpr ("06.1875".toList) = .ok (⟨1875, 6, 30⟩, none) ∧
    check_date_possible ("06.1875".toList) = .error .unboundLocal := by
  constructor
  · decide
  · decide

/-- **C6** (confirmed).  Whenever a date expression parses to an interval
`[s, e]` (both endpoint variables assigned), `check_date_possible`
accepts it exactly when `s <= death_date` and `e >= birth_date`, and
otherwise raises the `DateRangeError`-kind `ValueError` whose message
names the offending interval (and the fixed lifespan bounds). -/
theorem C6_lifespan_overlap (v : Str) (s e : PyDate)
    (h : parseDateExpr v = .ok (s, some e)) :
    (check_date_possible v = .ok v ↔
      (PyDate.le s death_date ∧ PyDate.le birth_date e)) ∧
    (¬ (PyDate.le s death_date ∧ PyDate.le birth_date e) →
      check_date_possible v = .error (.range s e)) := by
  have hck : check_date_possible v =
      (match rangeCheck s (some e) with
       | .error err => .error err
       | .ok _ => .ok v) := by
    unfold check_date_possible
    rw [h]
  have hrc : rangeCheck s (some e) =
      (if PyDate.le s death_date ∧ PyDate.le birth_date e then .ok ()
       else .error (.range s e)) := rfl
  rw [hrc] at hck
  by_cases hc : PyDate.le s death_date ∧ PyDate.le birth_date e
  · rw [if_pos hc] at hck
    exact ⟨⟨fun _ => hc, fun _ => hck⟩, fun hn => absurd hc hn⟩
  · rw [if_neg hc] at hck
    refine ⟨⟨fun hok => ?_, fun hcc => absurd hcc hc⟩, fun _ => hck⟩
    rw [hck] at hok
    cases hok

/-- Witness for C6 at the spec's own example: `parse("1800")` parses to
[1800-01-01, 1800-12-31], which misses the lifespan, so validation fails
with the range error naming that interval. -/
theorem C6_lifespan_overlap_witness :
    parseDateExpr ("1800".toList) = .ok (⟨1800, 1, 1⟩, some ⟨1800, 12, 31⟩) ∧
    ¬ (PyDate.le ⟨1800, 1, 1⟩ death_date ∧ PyDate.le birth_date ⟨1800, 12, 31⟩) ∧
    check_date_possible ("1800".toList) = .error (.range ⟨1800, 1, 1⟩ ⟨1800, 12, 31⟩) := by
  refine ⟨by decide, by decide, ?_⟩
  exact (C6_lifespan_overlap ("1800".toList) ⟨1800, 1, 1⟩ ⟨1800, 12, 31⟩ (by decide)).2
    (by decide)

/-- **C7** (confirmed).  A `DD.MM.YYYY` expression parses to the one-day
interval of exactly that day when the day is calendrically valid for that
month and year (Gregorian leap-year rule included), and raises the
`DateFormatError`-kind `ValueError` otherwise. -/
theorem C7_exact_day_parse (d m y : Nat) (hd : d < 100) (hm : m < 100) (hy : y < 10000) :
    (isValidDate y m d →
      parseDateExpr (ddmmyyyy d m y) = .ok (⟨y, m, d⟩, some ⟨y, m, d⟩)) ∧
    (¬ isValidDate y m d →
      parseDateExpr (ddmmyyyy d m y) = .error .format) := by
  rw [parseDateExpr_ddmmyyyy hd hm hy, parseParts_three hd hm hy]
  constructor
  · intro hv
    rw [if_pos hv]
  · intro hv
    rw [if_neg hv]

/-- Witness for C7 at the spec's own examples: 1900 is not a Gregorian
leap year, 1904 is, so `parse("29.02.1900")` fails with the format error
while `parse("29.02.1904")` yields start = end = 1904-02-29. -/
theorem C7_exact_day_parse_witness :
    isValidDate 1904 2 29 ∧ ¬ isValidDate 1900 2 29 ∧
    parseDateExpr ("29.02.1904".toList) = .ok (⟨1904, 2, 29⟩, some ⟨1904, 2, 29⟩) ∧
    parseDateExpr ("29.02.1900".toList) = .error .format := by
  refine ⟨by decide, by decide, ?_, ?_⟩
  · have e : ("29.02.1904".toList : Str) = ddmmyyyy 29 2 1904 := by decide
    rw [e]
    exact (C7_exact_day_parse 29 2 1904 (by decide) (by decide) (by decide)).1 (by decide)
  · have e : ("29.02.1900".toList : Str) = ddmmyyyy 29 2 1900 := by decide
    rw [e]
    exact (C7_exact_day_parse 29 2 1900 (by decide) (by decide) (by decide)).2 (by decide)

/-- **C10** (confirmed).  The declared field pattern admits the
approximate marker `ca.` with **zero** whitespace after it, but the
validator only strips the exact text `"ca. "` (with one trailing space),
so `"ca.1905"` passes the declarative pattern check and then fails in the
parser with the format error. -/
theorem C10_pattern_admits_unparsed :
    matchesDatePattern ("ca.1905".toList) = true ∧
    check_date_possible ("ca.1905".toList) = .error .format := by
  constructor
  · decide
  · decide

/-- **C5** (confirmed).  The duplicate-id check of the insert handler and
the id-mismatch check of the replace handler fire before any mutation:
on a duplicate id, insert returns the `DuplicateIdentifierError`-kind
rejection with the store exactly as before the call, and on a body/path
id mismatch, replace returns the `IdentifierMismatchError`-kind rejection
with the store exactly as before the call. -/
theorem C5_validation_before_mutation (persistOk : Bool) (st : StoreState)
    (c : Correspondence) (id : Int) :
    (st.df.any (fun r => r.id == c.id) = true →
      add_correspondence persistOk st c = (st, .error (.duplicateId c.id))) ∧
    (c.id ≠ id →
      replace_correspondence persistOk st id c = (st, .error (.idMismatch c.id id))) := by
  constructor
  · intro h
    unfold add_correspondence
    rw [if_pos h]
  · intro h
    unfold replace_correspondence
    rw [if_pos h]

/-- Witness for C5: inserting a candidate with the already-stored id 0
is rejected with the duplicate-id error, and replacing id 0 with a body
carrying id 1 is rejected with the mismatch error; in both cases the
state is returned untouched. -/
theorem C5_validation_before_mutation_witness :
    (exState.df.any (fun r => r.id == exDup.id) = true ∧
      add_correspondence true exState exDup = (exState, .error (.duplicateId 0))) ∧
    (exCand.id ≠ 0 ∧
      replace_correspondence true exState 0 exCand = (exState, .error (.idMismatch 1 0))) := by
  constructor
  · exact ⟨by decide, (C5_validation_before_mutation true exState exDup 0).1 (by decide)⟩
  · exact ⟨by decide, (C5_validation_before_mutation true exState exCand 0).2 (by decide)⟩

/-- **C3** (corrected).  The claim says a failed durable write is rolled
back in memory.  The code has no rollback: each handler reassigns/mutates
the in-memory DataFrame **before** calling `df.to_csv`, and an exception
from `to_csv` simply propagates, so after a failed write the in-memory
table holds the new state while the file still holds the old one.  This
theorem captures the actual behaviour for all three mutating handlers. -/
theorem C3_no_rollback (st : StoreState) (c : Correspondence) (id : Int) :
    (st.df.any (fun r => r.id == c.id) = false →
      st.df.any (fun r => r.signatur == c.reference_code) = false →
      add_correspondence false st c =
        ({ df := st.df ++ [normalizeEntry c], file := st.file }, .error .persistence)) ∧
    (∀ i, firstIdx? (fun r => r.id == id) st.df = some i →
      delete_correspondence false st id =
        ({ df := st.df.eraseIdx i, file := st.file }, .error .persistence)) ∧
    (∀ i, c.id = id → firstIdx? (fun r => r.id == id) st.df = some i →
      (st.df.eraseIdx i).any (fun r => r.signatur == c.reference_code) = false →
      replace_correspondence false st id c =
        ({ df := st.df.set i (replaceEntry c), file := st.file }, .error .persistence)) := by
  refine ⟨?_, ?_, ?_⟩
  · intro h1 h2
    unfold add_correspondence
    rw [h1, h2]
    simp
  · intro i hi
    unfold delete_correspondence
    rw [hi]
    simp
  · intro i hcid hi hsig
    unfold replace_correspondence
    rw [if_neg (by simpa using hcid), hi]
    simp [hsig]

/-- Witness for C3: a concrete insert whose durable write fails. -/
theorem C3_no_rollback_witness :
    exState.df.any (fun r => r.id == exCand.id) = false ∧
    exState.df.any (fun r => r.signatur == exCand.reference_code) = false ∧
    add_correspondence false exState exCand =
      ({ df := exState.df ++ [normalizeEntry exCand], file := exState.file },
       .error .persistence) := by
  refine ⟨by decide, by decide, ?_⟩
  exact (C3_no_rollback exState exCand 0).1 (by decide) (by decide)

/-- Counterexample to C3 as stated: after an insert whose durable write
fails, the handler reports the persistence failure but the in-memory
table (two rows) no longer agrees with the durable file (one row) — the
in-memory mutation was not rolled back and the two states diverge. -/
theorem C3_divergence_cex :
    (add_correspondence false exState exCand).2 = .error .persistence ∧
    (add_correspondence false exState exCand).1.df ≠
      (add_correspondence false exState exCand).1.file := by
  constructor
  · decide
  · decide

/-- **C2** (corrected).  The claim says empty/whitespace-only string
fields are replaced by the sentinel for insert and replace alike.  This
holds for insert: every string field of the appended row is stripped and,
if the result is empty, replaced by `"Daten fehlen"`, so every persisted
field is non-empty and non-whitespace-only.  For replace it fails: the
row is written with the candidate's fields verbatim — only an **empty**
(not whitespace-only) `notes_on_date` is replaced by the sentinel, and
the other fields are never normalized. -/
theorem C2_sentinel_normalization :
    (∀ persistOk st c st' row,
      add_correspondence persistOk st c = (st', .ok row) →
      row = normalizeEntry c ∧ goodRow row) ∧
    (∀ persistOk st c id st' row,
      replace_correspondence persistOk st id c = (st', .ok row) →
      row = replaceEntry c ∧
      row.bemerkungenZurDatierung =
        (if c.notes_on_date = [] then missingData else c.notes_on_date) ∧
      row.titel = c.title) := by
  constructor
  · intro persistOk st c st' row h
    unfold add_correspondence at h
    split at h
    · injection h with h1 h2; cases h2
    · split at h
      · injection h with h1 h2; cases h2
      · split at h
        · injection h with h1 h2
          injection h2 with h3
          refine ⟨h3.symm, ?_⟩
          rw [← h3]
          unfold goodRow normalizeEntry goodStr
          exact ⟨pyStrip_stripOrMissing_ne_nil _, pyStrip_stripOrMissing_ne_nil _,
            pyStrip_stripOrMissing_ne_nil _, pyStrip_stripOrMissing_ne_nil _,
            pyStrip_stripOrMissing_ne_nil _, pyStrip_stripOrMissing_ne_nil _,
            pyStrip_stripOrMissing_ne_nil _⟩
        · injection h with h1 h2; cases h2
  · intro persistOk st c id st' row h
    unfold replace_correspondence at h
    split at h
    · injection h with h1 h2; cases h2
    · split at h
      · injection h with h1 h2; cases h2
      · split at h
        · injection h with h1 h2; cases h2
        · split at h
          · injection h with h1 h2
            injection h2 with h3
            refine ⟨h3.symm, ?_, ?_⟩
            · rw [← h3]
              unfold replaceEntry
              rfl
            · rw [← h3]
              rfl
          · injection h with h1 h2; cases h2

/-- Witness for C2's amended statement, at a concrete insert and a
concrete replace. -/
theorem C2_sentinel_normalization_witness :
    (add_correspondence true exState exCand =
      ({ df := [exRow, normalizeEntry exCand], file := [exRow, normalizeEntry exCand] },
       .ok (normalizeEntry exCand)) ∧
      goodRow (normalizeEntry exCand)) ∧
    (replace_correspondence true exState 0 exWs =
      ({ df := [replaceEntry exWs], file := [replaceEntry exWs] }, .ok (replaceEntry exWs)) ∧
      (replaceEntry exWs).titel = exWs.title) := by
  constructor
  · refine ⟨by decide, ?_⟩
    exact ((C2_sentinel_normalization).1 true exState exCand
      { df := [exRow, normalizeEntry exCand], file := [exRow, normalizeEntry exCand] }
      (normalizeEntry exCand) (by decide)).2
  · refine ⟨by decide, ?_⟩
    exact ((C2_sentinel_normalization).2 true exState exWs 0
      { df := [replaceEntry exWs], file := [replaceEntry exWs] }
      (replaceEntry exWs) (by decide)).2.2

/-- Counterexample to C2 as stated: a fully request-valid candidate whose
`title` is the whitespace-only string `" "` is accepted by replace, and
the committed store (memory and file alike) then holds a row whose
`Titel` field is whitespace-only — it was persisted verbatim, not
replaced by the sentinel. -/
theorem C2_whitespace_persisted_cex :
    (replace_correspondence true exState 0 exWs).2 = .ok (replaceEntry exWs) ∧
    (replace_correspondence true exState 0 exWs).1.df = [replaceEntry exWs] ∧
    (replace_correspondence true exState 0 exWs).1.file = [replaceEntry exWs] ∧
    (replaceEntry exWs).titel = [' '] ∧
    pyStrip (replaceEntry exWs).titel = [] := by
  refine ⟨by decide, by decide, by decide, by decide, by decide⟩

/-- **C4** (confirmed).  From any store state whose ids are pairwise
distinct and non-negative and whose reference codes are pairwise
distinct, every successful insert, replace or delete (for a candidate
that passed request validation: `id >= 0` and a pattern-conforming
reference code) yields a store state with the same property. -/
theorem C4_uniqueness_invariant (persistOk : Bool) (st : StoreState)
    (c : Correspondence) (id : Int)
    (hinv : Invariant st.df) (hid : 0 ≤ c.id)
    (href : matchesRefCode c.reference_code = true) :
    (∀ st' row, add_correspondence persistOk st c = (st', .ok row) → Invariant st'.df) ∧
    (∀ st' row, replace_correspondence persistOk st id c = (st', .ok row) →
      Invariant st'.df) ∧
    (∀ st' did, delete_correspondence persistOk st id = (st', .ok did) →
      Invariant st'.df) := by
  obtain ⟨hids, hpos, hsigs⟩ := hinv
  refine ⟨?_, ?_, ?_⟩
  · intro st' row h
    unfold add_correspondence at h
    split at h
    · injection h with h1 h2; cases h2
    · rename_i hdup
      split at h
      · injection h with h1 h2; cases h2
      · rename_i hsigdup
        split at h
        · injection h with h1 h2
          subst h1
          refine ⟨?_, ?_, ?_⟩
          · show ((st.df ++ [normalizeEntry c]).map Row.id).Nodup
            rw [List.map_append]
            simp only [List.map_cons, List.map_nil]
            rw [List.nodup_append]
            refine ⟨hids, List.nodup_singleton _, ?_⟩
            rw [List.disjoint_singleton]
            intro hmem
            rw [List.mem_map] at hmem
            obtain ⟨r, hr, hre⟩ := hmem
            apply hdup
            rw [List.any_eq_true]
            exact ⟨r, hr, by rw [beq_iff_eq]; exact hre⟩
          · intro r hr
            rcases List.mem_append.mp hr with h1 | h1
            · exact hpos r h1
            · rw [List.mem_singleton] at h1
              subst h1
              exact hid
          · show ((st.df ++ [normalizeEntry c]).map Row.signatur).Nodup
            rw [List.map_append]
            simp only [List.map_cons, List.map_nil]
            rw [List.nodup_append]
            refine ⟨hsigs, List.nodup_singleton _, ?_⟩
            rw [List.disjoint_singleton]
            intro hmem
            rw [List.mem_map] at hmem
            obtain ⟨r, hr, hre⟩ := hmem
            apply hsigdup
            rw [List.any_eq_true]
            refine ⟨r, hr, ?_⟩
            rw [beq_iff_eq, hre]
            exact stripOrMissing_refCode href
        · injection h with h1 h2; cases h2
  · intro st' row h
    unfold replace_correspondence at h
    split at h
    · injection h with h1 h2; cases h2
    · rename_i hcid
      have hcid' : c.id = id := not_not.mp hcid
      split at h
      · injection h with h1 h2; cases h2
      · rename_i i hfind
        split at h
        · injection h with h1 h2; cases h2
        · rename_i hsigdup
          split at h
          · injection h with h1 h2
            subst h1
            have hilt : i < st.df.length := firstIdx?_lt_length hfind
            have hgid : (st.df.getD i exRow).id = id := by
              have hx := firstIdx?_getD exRow hfind
              rwa [beq_iff_eq] at hx
            refine ⟨?_, ?_, ?_⟩
            · show ((st.df.set i (replaceEntry c)).map Row.id).Nodup
              rw [List.map_set]
              have he : (replaceEntry c).id = (st.df.map Row.id).getD i (Row.id exRow) := by
                rw [getD_map Row.id st.df i exRow hilt, hgid]
                exact hcid'
              rw [he, set_getD_self _ _ _ (by simpa using hilt)]
              exact hids
            · intro r hr
              rcases List.mem_or_eq_of_mem_set hr with h1 | h1
              · exact hpos r h1
              · subst h1
                exact hid
            · show ((st.df.set i (replaceEntry c)).map Row.signatur).Nodup
              rw [List.map_set]
              apply nodup_set hsigs (by simpa using hilt)
              rw [← map_eraseIdx]
              intro hmem
              rw [List.mem_map] at hmem
              obtain ⟨r, hr, hre⟩ := hmem
              apply hsigdup
              rw [List.any_eq_true]
              exact ⟨r, hr, by rw [beq_iff_eq]; exact hre⟩
          · injection h with h1 h2; cases h2
  · intro st' did h
    unfold delete_correspondence at h
    split at h
    · injection h with h1 h2; cases h2
    · rename_i i hfind
      split at h
      · injection h with h1 h2
        subst h1
        have hsub := List.eraseIdx_sublist st.df i
        refine ⟨?_, ?_, ?_⟩
        · show ((st.df.eraseIdx i).map Row.id).Nodup
          rw [map_eraseIdx]
          exact List.Nodup.sublist (List.eraseIdx_sublist _ i) hids
        · intro r hr
          exact hpos r (hsub.subset hr)
        · show ((st.df.eraseIdx i).map Row.signatur).Nodup
          rw [map_eraseIdx]
          exact List.Nodup.sublist (List.eraseIdx_sublist _ i) hsigs
      · injection h with h1 h2; cases h2

/-- Witness for C4: the sample state satisfies the invariant, the sample
candidate passes validation, and the state after a successful insert
satisfies the invariant again. -/
theorem C4_uniqueness_invariant_witness :
    Invariant exState.df ∧ 0 ≤ exCand.id ∧ matchesRefCode exCand.reference_code = true ∧
    Invariant [exRow, normalizeEntry exCand] := by
  refine ⟨by decide, by decide, by decide, ?_⟩
  exact (C4_uniqueness_invariant true exState exCand 0 (by decide) (by decide) (by decide)).1
    { df := [exRow, normalizeEntry exCand], file := [exRow, normalizeEntry exCand] }
    (normalizeEntry exCand) (by decide)

/-- **C9** (corrected).  Deleting an id absent from the store fails with
the not-found error and leaves the state untouched; deleting an existing
id removes the (unique) row with that id, and a subsequent lookup of that
id fails with the not-found error.  The success payload, however, is the
deleted **id** (`{"message": …, "deleted_id": id}`), not the removed
record as the claim states. -/
theorem C9_delete_semantics (st : StoreState) (id : Int)
    (hnodup : (st.df.map Row.id).Nodup) :
    ((∀ r ∈ st.df, (r.id == id) = false) →
      delete_correspondence true st id = (st, .error (.notFound id))) ∧
    (∀ i, firstIdx? (fun r => r.id == id) st.df = some i →
      delete_correspondence true st id =
        ({ df := st.df.eraseIdx i, file := st.df.eraseIdx i }, .ok id) ∧
      get_one_correspondence { df := st.df.eraseIdx i, file := st.df.eraseIdx i } id =
        .error (.notFound id)) := by
  constructor
  · intro hnone
    unfold delete_correspondence
    rw [firstIdx?_eq_none_iff.mpr hnone]
  · intro i hfind
    constructor
    · unfold delete_correspondence
      rw [hfind]
      simp
    · unfold get_one_correspondence
      have hnone2 : firstIdx? (fun r => r.id == id) (st.df.eraseIdx i) = none := by
        rw [firstIdx?_eq_none_iff]
        intro r hr
        by_contra hne
        rw [Bool.not_eq_false, beq_iff_eq] at hne
        have hid_mem : id ∈ (st.df.map Row.id).eraseIdx i := by
          rw [← map_eraseIdx, List.mem_map]
          exact ⟨r, hr, hne⟩
        have hilt : i < st.df.length := firstIdx?_lt_length hfind
        have hgid : (st.df.getD i exRow).id = id := by
          have hx := firstIdx?_getD exRow hfind
          rwa [beq_iff_eq] at hx
        have hnm := nodup_getD_not_mem_eraseIdx (Row.id exRow) hnodup (by simpa using hilt)
        rw [getD_map Row.id st.df i exRow hilt, hgid] at hnm
        exact hnm hid_mem
      rw [hnone2]

/-- Witness for C9's amended statement at a concrete store. -/
theorem C9_delete_semantics_witness :
    (exState.df.map Row.id).Nodup ∧
    firstIdx? (fun r => r.id == (0 : Int)) exState.df = some 0 ∧
    (delete_correspondence true exState 0 = ({ df := [], file := [] }, .ok 0) ∧
      get_one_correspondence { df := [], file := [] } 0 = .error (.notFound 0)) := by
  refine ⟨by decide, by decide, ?_⟩
  exact (C9_delete_semantics exState 0 (by decide)).2 0 (by decide)

/-- Counterexample to C9's "returns the removed record": two stores whose
(distinct) rows both carry id 0 produce **identical** success payloads
under delete, so the returned value cannot be the removed record — the
handler only answers with the deleted id. -/
theorem C9_returns_id_cex :
    exRow ≠ exRowB ∧
    (delete_correspondence true { df := [exRow], file := [exRow] } 0).2 =
      (delete_correspondence true { df := [exRowB], file := [exRowB] } 0).2 ∧
    (delete_correspondence true { df := [exRow], file := [exRow] } 0).1.df = [] ∧
    (delete_correspondence true { df := [exRowB], file := [exRowB] } 0).1.df = [] := by
  refine ⟨by decide, by decide, by decide, by decide⟩

/-- **C8** (confirmed, against the spec-modelled name table).  The
language validator succeeds exactly when the trimmed, case-folded input
is a member of the (case-folded) reference display-name set, and on
success returns the trimmed input with its original casing; in
particular `"  deutsch "` and `"Deutsch"` both succeed and
`"Klingonisch"` fails with the unknown-language error. -/
theorem C8_language_membership (v : Str) :
    ((∃ r, check_language_possible v = .ok r) ↔
      lowerStr (pyStrip v) ∈ germanLanguageNames.map lowerStr) ∧
    (∀ r, check_language_possible v = .ok r → r = pyStrip v) ∧
    check_language_possible ("  deutsch ".toList) = .ok ("deutsch".toList) ∧
    check_language_possible ("Deutsch".toList) = .ok ("Deutsch".toList) ∧
    check_language_possible ("Klingonisch".toList) = .error .unknownLanguage := by
  refine ⟨?_, ?_, by decide, by decide, by decide⟩
  · unfold check_language_possible
    by_cases hm : (germanLanguageNames.map lowerStr).contains (lowerStr (pyStrip v)) = true
    · rw [if_pos hm]
      constructor
      · intro _
        exact List.elem_iff.mp hm
      · intro _
        exact ⟨pyStrip v, rfl⟩
    · rw [if_neg hm]
      constructor
      · rintro ⟨r, hr⟩
        cases hr
      · intro hmem
        exact absurd (List.elem_iff.mpr hmem) hm
  · intro r hr
    unfold check_language_possible at hr
    split at hr
    · injection hr with h1
      exact h1.symm
    · cases hr

/-- Witness for C8 at a concrete input. -/
theorem C8_language_membership_witness :
    check_language_possible ("Deutsch".toList) = .ok ("Deutsch".toList) :=
  (C8_language_membership ("Deutsch".toList)).2.2.2.1

end Spec2Proof
